import Mathlib

/-!
Verification of the Bus Boarding Sequence Generator
(`boarding_sequence.py`), shallowly embedded in Lean 4.

Strings are modelled as `List Char` (ASCII scope). Python's
fallible operations (regex parse failures, `int()` conversion
errors, `max()` of an empty collection) are modelled with
`Option`: `none` is a raised exception. Python's `sorted`, a
stable sort, is modelled by `List.mergeSort` with the boolean
comparison corresponding to the key `(-max_distance, booking_id)`.
-/

namespace BusBoarding

/-- Python whitespace recognised by `str.strip` (ASCII scope). -/
def isWS (c : Char) : Bool :=
  c = ' ' || c = '\t' || c = '\n' || c = '\r' || c = '\x0b' || c = '\x0c'

/-- `str.strip()`: drop whitespace at both ends. -/
def pyStrip (l : List Char) : List Char :=
  ((l.dropWhile isWS).reverse.dropWhile isWS).reverse

/-- `str.upper()` (ASCII scope). -/
def pyUpper (l : List Char) : List Char :=
  l.map Char.toUpper

/-- The regex character class `[A-Z]`. -/
def isUpperAlpha (c : Char) : Bool :=
  'A' ≤ c && c ≤ 'Z'

/-- Numeric value of a decimal digit character. -/
def digitVal (c : Char) : Nat :=
  c.toNat - '0'.toNat

/-- Value of a digit run, as `int()` reads it (most significant first). -/
def digitsToNat (l : List Char) : Nat :=
  l.foldl (fun a c => 10 * a + digitVal c) 0

/-- `parse_seat` (boarding_sequence.py lines 16-32): strip and uppercase
the label, then apply `re.match(r'([A-Z])(\d+)', seat)` — an anchored
prefix match, greedy in the digit run, with no end anchor. `none` models
the raised `ValueError`. -/
def parse_seat (s : List Char) : Option (Char × Nat) :=
  let t := pyUpper (pyStrip s)
  match t with
  | [] => none
  | c :: rest =>
    if isUpperAlpha c then
      let ds := rest.takeWhile Char.isDigit
      if ds.isEmpty then none else some (c, digitsToNat ds)
    else none

/-- `get_seat_distance` (lines 34-46): the seat number from `parse_seat`. -/
def get_seat_distance (s : List Char) : Option Nat :=
  (parse_seat s).map Prod.snd

/-- `get_booking_max_distance` (lines 48-59):
`max(self.get_seat_distance(seat) for seat in seats)`. A failing seat
parse propagates; `max` of an empty collection raises (`List.max? [] = none`). -/
def get_booking_max_distance (seats : List (List Char)) : Option Nat :=
  (seats.mapM get_seat_distance).bind List.max?

/-- A parsed booking record: the dict
`{'booking_id': ..., 'seats': ..., 'max_distance': ...}`. -/
structure Booking where
  booking_id : Int
  seats : List (List Char)
  max_distance : Int
  deriving DecidableEq, Repr

/-- A booking dict after sequencing, carrying the added `'sequence'` key. -/
structure SBooking where
  booking_id : Int
  seats : List (List Char)
  max_distance : Int
  sequence : Nat
  deriving DecidableEq, Repr

/-- Forget the sequence annotation. -/
def SBooking.toB (s : SBooking) : Booking :=
  ⟨s.booking_id, s.seats, s.max_distance⟩

/-- The comparison `key x ≤ key y` for `key = lambda x: (-x['max_distance'],
x['booking_id'])` (lines 112-115), i.e. Python's lexicographic tuple order
on the negated distance and the id. -/
def bLe (x y : Booking) : Bool :=
  decide (y.max_distance < x.max_distance) ||
    (decide (x.max_distance = y.max_distance) && decide (x.booking_id ≤ y.booking_id))

/-- `enumerate(sorted_bookings, start=n)` writing each index into the
record (lines 117-119). -/
def addSeq : List Booking → Nat → List SBooking
  | [], _ => []
  | b :: bs, n => ⟨b.booking_id, b.seats, b.max_distance, n⟩ :: addSeq bs (n + 1)

/-- `generate_boarding_sequence` (lines 98-121): stable-sort by
`(-max_distance, booking_id)`, then annotate with 1-based sequence numbers. -/
def generate_boarding_sequence (bs : List Booking) : List SBooking :=
  addSeq (bs.mergeSort bLe) 1

/-- `line.split(',')` (line 83). -/
def splitComma : List Char → List (List Char)
  | [] => [[]]
  | c :: rest =>
    let ps := splitComma rest
    if c = ',' then [] :: ps
    else
      match ps with
      | [] => [[c]]
      | p :: pt => (c :: p) :: pt

/-- A run of decimal digits as `int()` accepts, else failure. -/
def digitRunToNat (l : List Char) : Option Nat :=
  if l ≠ [] ∧ l.all Char.isDigit then some (digitsToNat l) else none

/-- Python `int()` applied to an already-stripped string: optional sign,
then a non-empty digit run; `none` models the raised `ValueError`. -/
def pyParseInt (l : List Char) : Option Int :=
  match l with
  | '-' :: rest => (digitRunToNat rest).map (fun n => -(n : Int))
  | '+' :: rest => (digitRunToNat rest).map (fun n => (n : Int))
  | _ => (digitRunToNat l).map (fun n => (n : Int))

/-- The body of the loop in `parse_booking_data` (lines 77-94), applied to
the data lines after the header: blank lines and lines with fewer than two
comma-separated fields are skipped with `continue`; otherwise the first
field must parse as an integer and every remaining field as a seat, and
any failure aborts the whole run. -/
def processLines : List (List Char) → Option (List Booking)
  | [] => some []
  | l :: ls =>
    let line := pyStrip l
    if line = [] then processLines ls
    else
      let parts := (splitComma line).map pyStrip
      if parts.length < 2 then processLines ls
      else
        match pyParseInt (parts.headD []) with
        | none => none
        | some bid =>
          let seats := parts.drop 1
          match get_booking_max_distance seats with
          | none => none
          | some d =>
            (processLines ls).map (fun bs => ⟨bid, seats, (d : Int)⟩ :: bs)

/-- `parse_booking_data` (lines 61-96) on the list of lines of the file:
skip the header line, then process each data line. -/
def parse_booking_data (lines : List (List Char)) : Option (List Booking) :=
  processLines (lines.drop 1)

/-- A data line that reaches the `int(parts[0])` conversion and fails it:
non-blank after stripping, at least two comma-separated fields, and a
first field that is not an integer. -/
def badIdLine (l : List Char) : Bool :=
  !(pyStrip l).isEmpty &&
  decide (2 ≤ ((splitComma (pyStrip l)).map pyStrip).length) &&
  (pyParseInt (((splitComma (pyStrip l)).map pyStrip).headD [])).isNone

/-- The full-match pattern `^[A-Z]\d+$` claimed by the specification for
seat labels (spec §4.1). Stated from the spec's words, to be compared
with the prefix match the code performs. -/
def specFullPattern (l : List Char) : Bool :=
  match l with
  | [] => false
  | c :: rest => isUpperAlpha c && !rest.isEmpty && rest.all Char.isDigit

/-- Whether a normalized label starts with an uppercase letter followed by
a digit — exactly when the code's prefix regex matches. -/
def prefixOk (l : List Char) : Bool :=
  match l with
  | c :: d :: _ => isUpperAlpha c && d.isDigit
  | _ => false

/-! ### Helper lemmas -/

theorem dropWhile_append_all {p : Char → Bool} {ws l : List Char}
    (h : ws.all p = true) : (ws ++ l).dropWhile p = l.dropWhile p := by
  induction ws with
  | nil => rfl
  | cons c cs ih =>
    simp only [List.all_cons, Bool.and_eq_true] at h
    simp [List.dropWhile_cons, h.1, ih h.2]

theorem pyStrip_pad {ws₁ ws₂ : List Char} (s : List Char)
    (h₁ : ws₁.all isWS = true) (h₂ : ws₂.all isWS = true) :
    pyStrip (ws₁ ++ s ++ ws₂) = pyStrip s := by
  unfold pyStrip
  rw [List.append_assoc, dropWhile_append_all h₁]
  rw [List.dropWhile_append]
  by_cases hA : (s.dropWhile isWS).isEmpty = true
  · rw [if_pos hA]
    have hnil : s.dropWhile isWS = [] := by
      cases hd : s.dropWhile isWS with
      | nil => rfl
      | cons x xs => rw [hd] at hA; simp at hA
    have hws : ws₂.dropWhile isWS = [] :=
      List.dropWhile_eq_nil_iff.mpr fun x hx => by
        exact (List.all_eq_true.mp h₂) x hx
    rw [hnil, hws]
  · rw [if_neg hA]
    rw [List.reverse_append, dropWhile_append_all]
    rw [List.all_eq_true]
    intro x hx
    exact (List.all_eq_true.mp h₂) x (List.mem_reverse.mp hx)

theorem takeWhile_all_digits {ds : List Char} (h : ds.all Char.isDigit = true) :
    ds.takeWhile Char.isDigit = ds :=
  List.takeWhile_eq_self_iff.mpr (List.all_eq_true.mp h)

/-! ### C10 — empty seat list -/

/-- C10: for the empty seat list, `get_booking_max_distance` signals an
error (Python's `max()` of an empty collection raises `ValueError`) rather
than returning a default distance. -/
theorem c10_empty_seats_error :
    get_booking_max_distance ([] : List (List Char)) = none := rfl

/-! ### C3 — valid seat labels parse -/

/-- C3: any string whose trimmed-and-uppercased form matches `^[A-Z]\d+$`
is accepted by `parse_seat`, which returns the row letter and the digit
run read as a number; the result is invariant under surrounding
whitespace and depends only on the normalized (trimmed, uppercased)
form, hence is unaffected by the original letter case. -/
theorem c3_parse_seat_valid (s : List Char) (c : Char) (ds : List Char)
    (hnorm : pyUpper (pyStrip s) = c :: ds)
    (hc : isUpperAlpha c = true)
    (hne : ds ≠ [])
    (hds : ds.all Char.isDigit = true) :
    parse_seat s = some (c, digitsToNat ds) ∧
    (∀ ws₁ ws₂ : List Char, ws₁.all isWS = true → ws₂.all isWS = true →
      parse_seat (ws₁ ++ s ++ ws₂) = parse_seat s) ∧
    (∀ s' : List Char, pyUpper (pyStrip s') = pyUpper (pyStrip s) →
      parse_seat s' = parse_seat s) := by
  refine ⟨?_, ?_, ?_⟩
  · unfold parse_seat
    rw [hnorm]
    simp [hc, takeWhile_all_digits hds, hne]
  · intro ws₁ ws₂ h₁ h₂
    unfold parse_seat
    rw [pyStrip_pad s h₁ h₂]
  · intro s' h
    unfold parse_seat
    rw [h]

/-- Witness for C3 at the concrete label `" b7 "`. -/
theorem c3_witness :
    parse_seat [' ', 'b', '7', ' '] = some ('B', digitsToNat ['7']) :=
  (c3_parse_seat_valid [' ', 'b', '7', ' '] 'B' ['7'] (by decide) (by decide)
    (by decide) (by decide)).1

/-! ### C4 — invalid seat labels (corrected) -/

/-- C4 counterexample: the label `"A1X"` does not match the full pattern
`^[A-Z]\d+$` after normalization, yet `parse_seat` succeeds and returns
`('A', 1)` — the regex in the code is an unanchored-at-the-end prefix
match, so trailing extra characters do not cause an error. -/
theorem c4_counterexample :
    specFullPattern (pyUpper (pyStrip ['A', '1', 'X'])) = false ∧
    parse_seat ['A', '1', 'X'] = some ('A', 1) := by decide

/-- C4 amended: `parse_seat` signals an error exactly for the strings
whose trimmed-and-uppercased form does not begin with an uppercase letter
followed by at least one digit; a string with a valid letter-digit prefix
but extra trailing characters succeeds instead, returning the leading
letter and the maximal leading digit run. -/
theorem c4_amended_parse_seat_error (s : List Char) :
    (parse_seat s = none ↔ prefixOk (pyUpper (pyStrip s)) = false) ∧
    (∀ (c : Char) (rest : List Char),
      pyUpper (pyStrip s) = c :: rest →
      prefixOk (pyUpper (pyStrip s)) = true →
      parse_seat s = some (c, digitsToNat (rest.takeWhile Char.isDigit))) := by
  have hsucc : ∀ (c : Char) (rest : List Char),
      pyUpper (pyStrip s) = c :: rest →
      prefixOk (pyUpper (pyStrip s)) = true →
      parse_seat s = some (c, digitsToNat (rest.takeWhile Char.isDigit)) := by
    intro c rest hnorm hpre
    rw [hnorm] at hpre
    cases rest with
    | nil => exact absurd hpre (by simp [prefixOk])
    | cons d rest' =>
      unfold prefixOk at hpre
      rw [Bool.and_eq_true] at hpre
      obtain ⟨hc, hd⟩ := hpre
      unfold parse_seat
      rw [hnorm]
      simp [hc, List.takeWhile_cons, hd]
  have hfail : prefixOk (pyUpper (pyStrip s)) = false → parse_seat s = none := by
    intro h
    unfold parse_seat
    cases hn : pyUpper (pyStrip s) with
    | nil => rfl
    | cons c rest =>
      rw [hn] at h
      cases rest with
      | nil =>
        by_cases hc : isUpperAlpha c = true
        · simp [hc]
        · simp [hc]
      | cons d rest' =>
        unfold prefixOk at h
        rcases Bool.and_eq_false_iff.mp h with hc | hd
        · simp [hc]
        · by_cases hc : isUpperAlpha c = true
          · simp [hc, List.takeWhile_cons, hd]
          · simp [hc]
  refine ⟨⟨?_, hfail⟩, hsucc⟩
  intro hnone
  by_contra hpre
  rw [Bool.not_eq_false] at hpre
  cases hn : pyUpper (pyStrip s) with
  | nil =>
    rw [hn] at hpre
    exact absurd hpre (by simp [prefixOk])
  | cons c rest =>
    rw [hsucc c rest hn hpre] at hnone
    exact Option.noConfusion hnone

/-- Witness for the amended C4: `"123"` errors (no letter-digit prefix),
and `"a1x2"` succeeds with the leading letter and the maximal leading
digit run `"1"`. -/
theorem c4_witness :
    parse_seat ['1', '2', '3'] = none ∧
    parse_seat ['a', '1', 'x', '2'] = some ('A', 1) := by
  constructor
  · exact (c4_amended_parse_seat_error ['1', '2', '3']).1.mpr (by decide)
  · have h := (c4_amended_parse_seat_error ['a', '1', 'x', '2']).2 'A'
      ['1', 'X', '2'] (by decide) (by decide)
    simpa using h

/-! ### C5 — booking distance is the maximum seat distance -/

theorem foldl_max_spec (tl : List Nat) (d : Nat) :
    tl.foldl max d ∈ d :: tl ∧ d ≤ tl.foldl max d ∧
      ∀ x ∈ tl, x ≤ tl.foldl max d := by
  induction tl generalizing d with
  | nil => simp
  | cons e tl ih =>
    obtain ⟨hmem, hle, hub⟩ := ih (max d e)
    simp only [List.foldl_cons]
    refine ⟨?_, ?_, ?_⟩
    · rcases List.mem_cons.mp hmem with h | h
      · rcases max_choice d e with hc | hc <;> rw [h, hc] <;> simp
      · simp [h]
    · exact le_trans (le_max_left d e) hle
    · intro x hx
      rcases List.mem_cons.mp hx with h | h
      · rw [h]; exact le_trans (le_max_right d e) hle
      · exact hub x h

/-- C5: for a seat label accepted by the parser, `get_seat_distance`
returns exactly the parsed seat number (the row letter contributes
nothing); and for a non-empty seat list whose per-seat distances are
`ds`, `get_booking_max_distance` returns the maximum of `ds`. -/
theorem c5_max_distance (s : List Char) (c : Char) (n : Nat)
    (seats : List (List Char)) (ds : List Nat)
    (hs : parse_seat s = some (c, n))
    (hm : seats.mapM get_seat_distance = some ds)
    (hne : seats ≠ []) :
    get_seat_distance s = some n ∧
    ∃ m, get_booking_max_distance seats = some m ∧ m ∈ ds ∧ ∀ d ∈ ds, d ≤ m := by
  constructor
  · unfold get_seat_distance
    rw [hs]
    rfl
  · have hbind : get_booking_max_distance seats = ds.max? := by
      unfold get_booking_max_distance
      rw [hm]
      rfl
    cases ds with
    | nil =>
      exfalso
      cases seats with
      | nil => exact hne rfl
      | cons s₀ rest =>
        rw [List.mapM_cons] at hm
        simp [Option.bind_eq_some] at hm
    | cons d tl =>
      obtain ⟨hmem, hle, hub⟩ := foldl_max_spec tl d
      refine ⟨tl.foldl max d, ?_, hmem, ?_⟩
      · rw [hbind]
        simp [List.max?]
      · intro x hx
        rcases List.mem_cons.mp hx with h | h
        · rw [h]; exact hle
        · exact hub x h

/-- Witness for C5 at seat `"A1"` and the booking `["A1", "B15"]`. -/
theorem c5_witness :
    get_seat_distance ['A', '1'] = some 1 ∧
    ∃ m, get_booking_max_distance [['A', '1'], ['B', '1', '5']] = some m ∧
      m ∈ [1, 15] ∧ ∀ d ∈ [1, 15], d ≤ m :=
  c5_max_distance ['A', '1'] 'A' 1 [['A', '1'], ['B', '1', '5']] [1, 15]
    (by decide) (by decide) (by decide)

/-! ### Sorting helper lemmas -/

theorem bLe_trans : ∀ a b c : Booking,
    bLe a b = true → bLe b c = true → bLe a c = true := by
  intro a b c h1 h2
  simp only [bLe, Bool.or_eq_true, Bool.and_eq_true, decide_eq_true_eq] at *
  omega

theorem bLe_total : ∀ a b : Booking, (bLe a b || bLe b a) = true := by
  intro a b
  simp only [bLe, Bool.or_eq_true, Bool.and_eq_true, decide_eq_true_eq]
  omega

theorem addSeq_map_toB (l : List Booking) (n : Nat) :
    (addSeq l n).map SBooking.toB = l := by
  induction l generalizing n with
  | nil => rfl
  | cons b bs ih => simp [addSeq, SBooking.toB, ih]

theorem addSeq_map_seq (l : List Booking) (n : Nat) :
    (addSeq l n).map SBooking.sequence = List.range' n l.length := by
  induction l generalizing n with
  | nil => rfl
  | cons b bs ih => simp [addSeq, List.range'_succ, ih]

theorem addSeq_length (l : List Booking) (n : Nat) :
    (addSeq l n).length = l.length := by
  have h := congrArg List.length (addSeq_map_toB l n)
  simpa using h

/-- On any input with pairwise-distinct booking ids, the stable sort by
the key `(-max_distance, booking_id)` yields a strictly decreasing-key
list. -/
theorem mergeSort_pairwise_strict (bs : List Booking)
    (h : (bs.map Booking.booking_id).Nodup) :
    (bs.mergeSort bLe).Pairwise (fun a b =>
      a.max_distance > b.max_distance ∨
        (a.max_distance = b.max_distance ∧ a.booking_id < b.booking_id)) := by
  have hs := List.sorted_mergeSort bLe_trans bLe_total bs
  have hperm : (bs.mergeSort bLe).Perm bs := List.mergeSort_perm bs bLe
  have hnd : ((bs.mergeSort bLe).map Booking.booking_id).Nodup :=
    ((hperm.map Booking.booking_id).symm).nodup h
  have hne : (bs.mergeSort bLe).Pairwise
      (fun a b => a.booking_id ≠ b.booking_id) :=
    List.pairwise_map.mp hnd
  refine (hs.and hne).imp ?_
  intro a b hab
  obtain ⟨hle, hneq⟩ := hab
  simp only [bLe, Bool.or_eq_true, Bool.and_eq_true, decide_eq_true_eq] at hle
  omega

/-- Two permuted lists, both pairwise-related by an asymmetric relation,
are equal. -/
theorem eq_of_perm_of_pairwise {α : Type} {r : α → α → Prop}
    (hasym : ∀ a b, r a b → r b a → False) :
    ∀ {l₁ l₂ : List α}, l₁.Perm l₂ → l₁.Pairwise r → l₂.Pairwise r →
      l₁ = l₂ := by
  intro l₁
  induction l₁ with
  | nil =>
    intro l₂ hp _ _
    exact hp.nil_eq
  | cons a t ih =>
    intro l₂ hp h₁ h₂
    cases l₂ with
    | nil => exact absurd hp.symm.nil_eq (by simp)
    | cons b t' =>
      by_cases hab : a = b
      · subst hab
        rw [ih hp.cons_inv (List.pairwise_cons.mp h₁).2
          (List.pairwise_cons.mp h₂).2]
      · exfalso
        have ha : a ∈ b :: t' := hp.mem_iff.mp (List.mem_cons_self a t)
        have ha' : a ∈ t' := by
          rcases List.mem_cons.mp ha with h | h
          · exact absurd h hab
          · exact h
        have hba : r b a := (List.pairwise_cons.mp h₂).1 a ha'
        have hb : b ∈ a :: t := hp.symm.mem_iff.mp (List.mem_cons_self b t')
        have hb' : b ∈ t := by
          rcases List.mem_cons.mp hb with h | h
          · exact absurd h.symm hab
          · exact h
        have hab' : r a b := (List.pairwise_cons.mp h₁).1 b hb'
        exact hasym a b hab' hba

theorem strict_asymm : ∀ a b : Booking,
    (a.max_distance > b.max_distance ∨
      (a.max_distance = b.max_distance ∧ a.booking_id < b.booking_id)) →
    (b.max_distance > a.max_distance ∨
      (b.max_distance = a.max_distance ∧ b.booking_id < a.booking_id)) →
    False := by
  intro a b h1 h2
  omega

/-! ### C1 — output ordered by the declared comparator -/

/-- C1: for pairwise-distinct booking ids, whenever booking `A` appears
before booking `B` in the output of `generate_boarding_sequence`, either
`A.max_distance > B.max_distance`, or they are equal and
`A.booking_id < B.booking_id`. -/
theorem c1_output_sorted (bs : List Booking)
    (h : (bs.map Booking.booking_id).Nodup) :
    (generate_boarding_sequence bs).Pairwise (fun a b =>
      a.max_distance > b.max_distance ∨
        (a.max_distance = b.max_distance ∧ a.booking_id < b.booking_id)) := by
  have hp := mergeSort_pairwise_strict bs h
  unfold generate_boarding_sequence
  rw [← addSeq_map_toB (bs.mergeSort bLe) 1] at hp
  exact List.pairwise_map.mp hp

/-- Witness for C1 at a concrete pair of bookings. -/
theorem c1_witness :
    (generate_boarding_sequence
      [⟨101, [['A', '1']], 1⟩, ⟨120, [['A', '2', '0']], 20⟩]).Pairwise
      (fun a b =>
        a.max_distance > b.max_distance ∨
          (a.max_distance = b.max_distance ∧ a.booking_id < b.booking_id)) :=
  c1_output_sorted [⟨101, [['A', '1']], 1⟩, ⟨120, [['A', '2', '0']], 20⟩]
    (by decide)

/-! ### C2 — permutation, length, sequence numbers `1..N` -/

/-- C2: the output of `generate_boarding_sequence` is a permutation of
the input of equal length; the sequence numbers read in output order are
exactly `1, 2, ..., N`; and the empty input yields an empty output. -/
theorem c2_permutation_and_sequence (bs : List Booking) :
    ((generate_boarding_sequence bs).map SBooking.toB).Perm bs ∧
    (generate_boarding_sequence bs).length = bs.length ∧
    (generate_boarding_sequence bs).map SBooking.sequence =
      List.range' 1 bs.length ∧
    generate_boarding_sequence [] = ([] : List SBooking) := by
  have hperm : (bs.mergeSort bLe).Perm bs := List.mergeSort_perm bs bLe
  refine ⟨?_, ?_, ?_, by simp [generate_boarding_sequence, List.mergeSort_nil, addSeq]⟩
  · unfold generate_boarding_sequence
    rw [addSeq_map_toB]
    exact hperm
  · unfold generate_boarding_sequence
    rw [addSeq_length]
    exact hperm.length_eq
  · unfold generate_boarding_sequence
    rw [addSeq_map_seq, hperm.length_eq]

/-! ### C6 — idempotence -/

/-- C6: re-running the sequencer on its own output, stripped of sequence
numbers, reproduces the identical output: the already-sorted list is left
unchanged by the stable sort. -/
theorem c6_idempotent (bs : List Booking) :
    generate_boarding_sequence ((generate_boarding_sequence bs).map SBooking.toB) =
      generate_boarding_sequence bs := by
  unfold generate_boarding_sequence
  rw [addSeq_map_toB,
    List.mergeSort_of_sorted (List.sorted_mergeSort bLe_trans bLe_total bs)]

/-! ### C7 — reproducibility regardless of input order -/

/-- C7: on inputs with pairwise-distinct booking ids, permuting the input
does not change the produced `(booking_id, max_distance, sequence)`
triples: the output order is reproducible regardless of input order. -/
theorem c7_order_independent (bs bs' : List Booking)
    (h : (bs.map Booking.booking_id).Nodup) (hp : bs.Perm bs') :
    (generate_boarding_sequence bs).map
        (fun s => (s.booking_id, s.max_distance, s.sequence)) =
      (generate_boarding_sequence bs').map
        (fun s => (s.booking_id, s.max_distance, s.sequence)) := by
  have h' : (bs'.map Booking.booking_id).Nodup := (hp.map Booking.booking_id).nodup h
  have hs1 := mergeSort_pairwise_strict bs h
  have hs2 := mergeSort_pairwise_strict bs' h'
  have hperm : (bs.mergeSort bLe).Perm (bs'.mergeSort bLe) :=
    (List.mergeSort_perm bs bLe).trans (hp.trans (List.mergeSort_perm bs' bLe).symm)
  have heq : bs.mergeSort bLe = bs'.mergeSort bLe :=
    eq_of_perm_of_pairwise strict_asymm hperm hs1 hs2
  unfold generate_boarding_sequence
  rw [heq]

/-- Witness for C7 at a concrete two-element list and its reversal. -/
theorem c7_witness :
    (generate_boarding_sequence
        [⟨1, [], 5⟩, ⟨2, [], 9⟩]).map
        (fun s => (s.booking_id, s.max_distance, s.sequence)) =
      (generate_boarding_sequence
        [⟨2, [], 9⟩, ⟨1, [], 5⟩]).map
        (fun s => (s.booking_id, s.max_distance, s.sequence)) :=
  c7_order_independent [⟨1, [], 5⟩, ⟨2, [], 9⟩] [⟨2, [], 9⟩, ⟨1, [], 5⟩]
    (by decide) (by decide)

/-! ### C9 — sequencing preserves the booking fields -/

/-- C9: sequencing does not alter the source booking data: every record
in the output of `generate_boarding_sequence` carries the `booking_id`,
`seats` and `max_distance` of some input booking unchanged; only the
sequence annotation is added. -/
theorem c9_no_mutation (bs : List Booking) (sb : SBooking)
    (h : sb ∈ generate_boarding_sequence bs) :
    ∃ b ∈ bs, sb.booking_id = b.booking_id ∧ sb.seats = b.seats ∧
      sb.max_distance = b.max_distance := by
  have h1 : sb.toB ∈ (generate_boarding_sequence bs).map SBooking.toB :=
    List.mem_map_of_mem SBooking.toB h
  unfold generate_boarding_sequence at h1
  rw [addSeq_map_toB] at h1
  have h2 : sb.toB ∈ bs := (List.mergeSort_perm bs bLe).mem_iff.mp h1
  exact ⟨sb.toB, h2, rfl, rfl, rfl⟩

/-- Witness for C9 at a concrete booking list and output element. -/
theorem c9_witness :
    ∃ b ∈ [(⟨7, [['A', '3']], 3⟩ : Booking)],
      (⟨7, [['A', '3']], 3, 1⟩ : SBooking).booking_id = b.booking_id ∧
      (⟨7, [['A', '3']], 3, 1⟩ : SBooking).seats = b.seats ∧
      (⟨7, [['A', '3']], 3, 1⟩ : SBooking).max_distance = b.max_distance :=
  c9_no_mutation [⟨7, [['A', '3']], 3⟩] ⟨7, [['A', '3']], 3, 1⟩ (by
    unfold generate_boarding_sequence
    rw [List.mergeSort_singleton]
    simp [addSeq])

/-! ### C8 — malformed records during ingestion (corrected) -/

theorem processLines_error :
    ∀ ls : List (List Char), (∃ l ∈ ls, badIdLine l = true) →
      processLines ls = none := by
  intro ls
  induction ls with
  | nil =>
    rintro ⟨l, hl, -⟩
    exact absurd hl (List.not_mem_nil l)
  | cons l ls ih =>
    rintro ⟨x, hx, hbad⟩
    rcases List.mem_cons.mp hx with h | h
    · subst h
      simp only [badIdLine, Bool.and_eq_true, Bool.not_eq_true',
        List.isEmpty_eq_false, decide_eq_true_eq,
        Option.isNone_iff_eq_none] at hbad
      obtain ⟨⟨hne, hlen⟩, hint⟩ := hbad
      simp only [processLines]
      rw [if_neg hne, if_neg (Nat.not_lt.mpr hlen), hint]
    · have ihe : processLines ls = none := ih ⟨x, h, hbad⟩
      simp only [processLines]
      split
      · exact ihe
      split
      · exact ihe
      split
      · rfl
      split
      · rfl
      · rw [ihe]
        rfl

/-- C8 counterexample: the data line `"101"` has fewer than two
comma-separated fields, yet `parse_booking_data` does not signal an
error — the line is silently skipped (`continue`) and the batch succeeds
with an empty result. -/
theorem c8_counterexample :
    pyStrip ['1', '0', '1'] ≠ [] ∧
    ((splitComma (pyStrip ['1', '0', '1'])).map pyStrip).length < 2 ∧
    parse_booking_data [['H'], ['1', '0', '1']] = some [] := by decide

/-- C8 amended: a data line whose first field is not an integer aborts
the whole batch with a terminating error and no partial result, but a
non-blank data line with fewer than two comma-separated fields is
silently skipped, contributing nothing, rather than invalidating the
batch. -/
theorem c8_amended_ingestion :
    (∀ lines : List (List Char), (∃ l ∈ lines.drop 1, badIdLine l = true) →
      parse_booking_data lines = none) ∧
    (∀ (l : List Char) (ls : List (List Char)), pyStrip l ≠ [] →
      ((splitComma (pyStrip l)).map pyStrip).length < 2 →
      processLines (l :: ls) = processLines ls) := by
  constructor
  · intro lines h
    unfold parse_booking_data
    exact processLines_error _ h
  · intro l ls h1 h2
    simp only [processLines]
    rw [if_neg h1, if_pos h2]

/-- Witness for the amended C8: a non-integer id aborts the batch, and a
one-field line is skipped. -/
theorem c8_witness :
    parse_booking_data [['H'], ['a', 'b', 'c', ',', 'A', '1']] = none ∧
    processLines [['1', '0', '1']] = processLines [] :=
  ⟨c8_amended_ingestion.1 [['H'], ['a', 'b', 'c', ',', 'A', '1']]
      ⟨['a', 'b', 'c', ',', 'A', '1'], by decide, by decide⟩,
    c8_amended_ingestion.2 ['1', '0', '1'] [] (by decide) (by decide)⟩

end BusBoarding
